import Mathlib

/-!
Shallow embedding of `src/homer_sync.py` (homer-sync): a reconciler that scans
HTTPRoutes, filters them, extracts display items from annotations, groups and
sorts them, and publishes a rendered manifest to a ConfigMap only on content
change.  Python dictionaries are modelled as association lists, Python `None`
versus an absent key as nested `Option`s, and Python exceptions as `Except`.
All names follow the source where Lean's lexer allows it.
-/

/-- Python exception classes raised by the modelled code paths. -/
inductive PyErr where
  | attributeError
  | keyError
  | typeError
  | valueError
deriving DecidableEq, Repr

/-- A Python `dict[str, str]` as an association list (keys unique in practice;
lookup returns the first binding). -/
abbrev StrDict := List (String × String)

/-- `d.get(k)` on a Python string dict. -/
def dictGet? (d : StrDict) (k : String) : Option String :=
  match d with
  | [] => none
  | (k', v) :: rest => if k' = k then some v else dictGet? rest k

/-- `d.get(k, dflt)` on a Python string dict. -/
def dictGetD (d : StrDict) (k dflt : String) : String :=
  (dictGet? d k).getD dflt

/-- `d[k] = v` on a Python string dict: overwrite in place, or append. -/
def dictSet (d : StrDict) (k v : String) : StrDict :=
  match d with
  | [] => [(k, v)]
  | (k', v') :: rest => if k' = k then (k, v) :: rest else (k', v') :: dictSet rest k v

/-- Python `str.lower()` (ASCII case folding, which covers the annotation
values compared by the source). -/
def pyLower (s : String) : String :=
  String.mk (s.data.map Char.toLower)

/-- Python `str.replace("-", " ")`: hyphens become spaces. -/
def pyReplaceDash (s : String) : String :=
  String.mk (s.data.map (fun c => if c = '-' then ' ' else c))

/-- Worker for Python `str.title()`: a letter that follows a letter is
lowercased, a letter that follows a non-letter is uppercased. -/
def titleGo : Bool → List Char → List Char
  | _, [] => []
  | prevAlpha, c :: rest =>
    if c.isAlpha then
      (if prevAlpha then c.toLower else c.toUpper) :: titleGo true rest
    else
      c :: titleGo false rest

/-- Python `str.title()` (ASCII model). -/
def pyTitle (s : String) : String :=
  String.mk (titleGo false s.data)

/-- Python `str.endswith(suffix)`. -/
def pyEndsWith (s suf : String) : Bool :=
  suf.data.isSuffixOf s.data

/-- Value of an ASCII digit character. -/
def digitVal? (c : Char) : Option Nat :=
  if c.isDigit then some (c.toNat - 48) else none

/-- Accumulate the remaining digits of a decimal literal. -/
def digitsGo : Nat → List Char → Option Nat
  | acc, [] => some acc
  | acc, c :: rest =>
    match digitVal? c with
    | some d => digitsGo (acc * 10 + d) rest
    | none => none

/-- A non-empty run of decimal digits, as a number. -/
def parseDigits : List Char → Option Nat
  | [] => none
  | c :: rest =>
    match digitVal? c with
    | some d => digitsGo d rest
    | none => none

/-- Whitespace stripping, as Python `int` applies to its argument. -/
def pyStrip (cs : List Char) : List Char :=
  ((cs.dropWhile Char.isWhitespace).reverse.dropWhile Char.isWhitespace).reverse

/-- Python `int(s)` on a string: optional surrounding whitespace, an optional
sign, then decimal digits; anything else raises `ValueError`.  (ASCII model of
the builtin used at `homer_sync.py:254`.) -/
def pyInt (s : String) : Except PyErr Int :=
  match pyStrip s.data with
  | '+' :: rest =>
    match parseDigits rest with
    | some n => .ok (Int.ofNat n)
    | none => .error .valueError
  | '-' :: rest =>
    match parseDigits rest with
    | some n => .ok (-(Int.ofNat n))
    | none => .error .valueError
  | cs =>
    match parseDigits cs with
    | some n => .ok (Int.ofNat n)
    | none => .error .valueError

/-! ## SHA-256 (`hashlib.sha256(...).hexdigest()` used by `_config_hash`)
Words are `Nat` reduced modulo `2 ^ 32`; messages are lists of byte values. -/

/-- Truncate to a 32-bit word. -/
def w32 (n : Nat) : Nat := n % 4294967296

/-- Right-rotation of a 32-bit word. -/
def rotr (n x : Nat) : Nat :=
  w32 ((x >>> n) ||| (x <<< (32 - n)))

/-- The 64 SHA-256 round constants. -/
def sha256K : List Nat :=
  [1116352408, 1899447441, 3049323471, 3921009573, 961987163, 1508970993,
   2453635748, 2870763221, 3624381080, 310598401, 607225278, 1426881987,
   1925078388, 2162078206, 2614888103, 3248222580, 3835390401, 4022224774,
   264347078, 604807628, 770255983, 1249150122, 1555081692, 1996064986,
   2554220882, 2821834349, 2952996808, 3210313671, 3336571891, 3584528711,
   113926993, 338241895, 666307205, 773529912, 1294757372, 1396182291,
   1695183700, 1986661051, 2177026350, 2456956037, 2730485921, 2820302411,
   3259730800, 3345764771, 3516065817, 3600352804, 4094571909, 275423344,
   430227734, 506948616, 659060556, 883997877, 958139571, 1322822218,
   1537002063, 1747873779, 1955562222, 2024104815, 2227730452, 2361852424,
   2428436474, 2756734187, 3204031479, 3329325298]

/-- The 8 initial SHA-256 state words. -/
def sha256H0 : List Nat :=
  [1779033703,
   3144134277,
   1013904242,
   2773480762,
   1359893119,
   2600822924,
   528734635,
   1541459225]

/-- Big-endian 4-byte grouping of a byte list into 32-bit words. -/
def bytesToWords : List Nat → List Nat
  | a :: b :: c :: d :: rest => (((a * 256 + b) * 256 + c) * 256 + d) :: bytesToWords rest
  | _ => []

/-- A `Nat` as 8 big-endian bytes. -/
def beBytes8 (n : Nat) : List Nat :=
  [n / 2 ^ 56 % 256, n / 2 ^ 48 % 256, n / 2 ^ 40 % 256, n / 2 ^ 32 % 256,
   n / 2 ^ 24 % 256, n / 2 ^ 16 % 256, n / 2 ^ 8 % 256, n % 256]

/-- SHA-256 padding: `0x80`, zeros to 56 mod 64, then the bit length. -/
def padMsg (msg : List Nat) : List Nat :=
  let len := msg.length
  let z := (56 + 64 - (len + 1) % 64) % 64
  msg ++ 128 :: List.replicate z 0 ++ beBytes8 (len * 8)

/-- Extend a 16-word block schedule by `k` further words. -/
def extendSchedule : List Nat → Nat → List Nat
  | ws, 0 => ws
  | ws, Nat.succ k =>
    let i := ws.length
    let w15 := ws.getD (i - 15) 0
    let w2 := ws.getD (i - 2) 0
    let w16 := ws.getD (i - 16) 0
    let w7 := ws.getD (i - 7) 0
    let s0 := (rotr 7 w15) ^^^ (rotr 18 w15) ^^^ (w15 >>> 3)
    let s1 := (rotr 17 w2) ^^^ (rotr 19 w2) ^^^ (w2 >>> 10)
    extendSchedule (ws ++ [w32 (w16 + s0 + w7 + s1)]) k

/-- One SHA-256 compression round on the 8-word state. -/
def sha256Round (st : List Nat) (k w : Nat) : List Nat :=
  match st with
  | [a, b, c, d, e, f, g, h] =>
    let s1 := rotr 6 e ^^^ rotr 11 e ^^^ rotr 25 e
    let ch := (e &&& f) ^^^ ((e ^^^ 4294967295) &&& g)
    let t1 := w32 (h + s1 + ch + k + w)
    let s0 := rotr 2 a ^^^ rotr 13 a ^^^ rotr 22 a
    let maj := (a &&& b) ^^^ (a &&& c) ^^^ (b &&& c)
    let t2 := w32 (s0 + maj)
    [w32 (t1 + t2), a, b, c, w32 (d + t1), e, f, g]
  | other => other

/-- Compress one 64-byte block into the running state. -/
def processBlock (h : List Nat) (block : List Nat) : List Nat :=
  let ws := extendSchedule (bytesToWords block) 48
  let st := (sha256K.zip ws).foldl (fun s p => sha256Round s p.1 p.2) h
  (h.zip st).map (fun p => w32 (p.1 + p.2))

/-- Split a byte list into 64-byte chunks (fueled; the fuel is the length). -/
def chunksGo : List Nat → Nat → List (List Nat)
  | _, 0 => []
  | l, Nat.succ fuel =>
    if l.isEmpty then [] else l.take 64 :: chunksGo (l.drop 64) fuel

/-- Split a byte list into 64-byte chunks. -/
def chunks64 (l : List Nat) : List (List Nat) :=
  chunksGo l l.length

/-- SHA-256 of a byte list, as the 8 final state words. -/
def sha256Words (msg : List Nat) : List Nat :=
  (chunks64 (padMsg msg)).foldl processBlock sha256H0

/-- Lowercase hexadecimal digit. -/
def hexDigit (n : Nat) : Char :=
  if n < 10 then Char.ofNat (48 + n) else Char.ofNat (87 + n)

/-- A 32-bit word as 8 lowercase hex characters. -/
def wordToHex (w : Nat) : List Char :=
  [hexDigit (w / 16 ^ 7 % 16), hexDigit (w / 16 ^ 6 % 16), hexDigit (w / 16 ^ 5 % 16),
   hexDigit (w / 16 ^ 4 % 16), hexDigit (w / 16 ^ 3 % 16), hexDigit (w / 16 ^ 2 % 16),
   hexDigit (w / 16 % 16), hexDigit (w % 16)]

/-- `hashlib.sha256(bytes).hexdigest()`. -/
def sha256Hex (msg : List Nat) : String :=
  String.mk (((sha256Words msg).map wordToHex).flatten)

/-- UTF-8 encoding of one code point (`str.encode()` acts per character). -/
def utf8Bytes (c : Nat) : List Nat :=
  if c < 128 then [c]
  else if c < 2048 then [192 + c / 64, 128 + c % 64]
  else if c < 65536 then [224 + c / 4096, 128 + c / 64 % 64, 128 + c % 64]
  else [240 + c / 262144, 128 + c / 4096 % 64, 128 + c / 64 % 64, 128 + c % 64]

/-- Python `str.encode()`: UTF-8 bytes of a string. -/
def strBytes (s : String) : List Nat :=
  (s.data.map (fun c => utf8Bytes c.toNat)).flatten

/-- `_config_hash` (homer_sync.py:311): SHA-256 hex digest of the UTF-8
encoded content. -/
def _config_hash (content : String) : String :=
  sha256Hex (strBytes content)

/-- Sanity check of the digest embedding against the published SHA-256 test
vector for the empty message. -/
theorem sha256_empty_vector :
    _config_hash "" = "e3b0c44298fc1c149afbf4c8996fb92427ae41e4649b934ca495991b7852b855" := by
  decide

/-! ## Configuration (homer_sync.py:46-78) -/

/-- The annotation key root `ANNOTATION_PREFIX` of the source
(homer_sync.py:27); renamed because of a lexical restriction here. -/
def annRoot : String := "home.mirceanton.com"

/-- `Config` (homer_sync.py:46-74). -/
structure Config where
  gateway_names : List String
  domain_suffixes : List String
  configmap_name : String
  configmap_namespace : String
  daemon_mode : Bool
  scan_interval : Nat
  log_level : String
  title : String
  subtitle : String
  columns : Nat
  template_path : String
deriving DecidableEq, Repr

/-- `Config.has_filters` (homer_sync.py:76-78): Python truthiness of
`gateway_names or domain_suffixes`. -/
def Config.has_filters (cfg : Config) : Bool :=
  !cfg.gateway_names.isEmpty || !cfg.domain_suffixes.isEmpty

/-! ## HTTPRoute objects
An HTTPRoute is a JSON-like nested dict.  For each optional sub-object the
outer `Option` is key absence and the inner `Option` is an explicit `null`
value (`None` in Python), which the source treats differently: `.get` with a
default covers absence only, and calling `.get` on `None` raises
`AttributeError`. -/

/-- One entry of `spec.parentRefs`; `ref.get("name")` may be absent. -/
structure ParentRef where
  name : Option String
deriving DecidableEq, Repr

/-- The `spec` sub-dict of an HTTPRoute. -/
structure RouteSpec where
  parentRefs : Option (Option (List ParentRef))
  hostnames : Option (Option (List String))
deriving DecidableEq, Repr

/-- The `metadata` sub-dict of an HTTPRoute.  `anns` models the
`"annotations"` key. -/
structure RouteMeta where
  ns : Option String
  name : Option String
  anns : Option (Option StrDict)
deriving DecidableEq, Repr

/-- An HTTPRoute as consumed by the source. -/
structure Route where
  metadata : Option (Option RouteMeta)
  spec : Option (Option RouteSpec)
deriving DecidableEq, Repr

/-- `route.get("metadata", {}).get("annotations") or {}`
(homer_sync.py:155 and 214-216): an absent or `null` annotations value
degrades to `{}`, but a `null` metadata value raises `AttributeError`. -/
def routeAnns (route : Route) : Except PyErr StrDict :=
  match route.metadata with
  | none => .ok []
  | some none => .error .attributeError
  | some (some m) =>
    match m.anns with
    | some (some d) => .ok d
    | _ => .ok []

/-- The annotations dict a route yields when no exception occurs (used to
state theorems; agrees with `routeAnns` off the error path). -/
def routeAnnsD (route : Route) : StrDict :=
  match route.metadata with
  | some (some m) =>
    match m.anns with
    | some (some d) => d
    | _ => []
  | _ => []

/-- The subscript chain `route["metadata"]["namespace"]` /
`route["metadata"]["name"]` evaluated eagerly as logging arguments on every
exclusion branch of `should_include` (homer_sync.py:161-195): a missing key
raises `KeyError` and subscripting `None` raises `TypeError`. -/
def subscriptMetaNsName (route : Route) : Except PyErr Unit :=
  match route.metadata with
  | none => .error .keyError
  | some none => .error .typeError
  | some (some m) =>
    match m.ns with
    | none => .error .keyError
    | some _ =>
      match m.name with
      | none => .error .keyError
      | some _ => .ok ()

/-- `route.get("spec", {}).get("parentRefs") or []` (homer_sync.py:170). -/
def getParentRefs (route : Route) : Except PyErr (List ParentRef) :=
  match route.spec with
  | none => .ok []
  | some none => .error .attributeError
  | some (some sp) =>
    match sp.parentRefs with
    | some (some l) => .ok l
    | _ => .ok []

/-- `route.get("spec", {}).get("hostnames") or []`
(homer_sync.py:183 and 221). -/
def getHostnames (route : Route) : Except PyErr (List String) :=
  match route.spec with
  | none => .ok []
  | some none => .error .attributeError
  | some (some sp) =>
    match sp.hostnames with
    | some (some l) => .ok l
    | _ => .ok []

/-! ## Filtering (homer_sync.py:153-201) -/

/-- `should_include` (homer_sync.py:153-201).  Opt-out mode when filters are
configured, opt-in mode otherwise; each exclusion branch logs, which
subscripts the route's metadata. -/
def should_include (route : Route) (cfg : Config) : Except PyErr Bool := do
  let anns ← routeAnns route
  let enabledAnn := pyLower (dictGetD anns (annRoot ++ "/enabled") "")
  if cfg.has_filters then
    if enabledAnn = "false" then
      let _ ← subscriptMetaNsName route
      return false
    if !cfg.gateway_names.isEmpty then
      let parent_refs ← getParentRefs route
      let matched := parent_refs.any (fun ref =>
        match ref.name with
        | some n => cfg.gateway_names.contains n
        | none => false)
      if !matched then
        let _ ← subscriptMetaNsName route
        return false
    if !cfg.domain_suffixes.isEmpty then
      let hostnames ← getHostnames route
      let matched := hostnames.any (fun hostname =>
        cfg.domain_suffixes.any (fun suffix => pyEndsWith hostname suffix))
      if !matched then
        let _ ← subscriptMetaNsName route
        return false
    return true
  else
    return decide (enabledAnn = "true")

/-! ## Annotation resolver (homer_sync.py:122-132) -/

/-- The namespace map built by `fetch_namespaces` (homer_sync.py:110-119):
namespace name to annotations dict, in enumeration order. -/
abbrev NsMap := List (String × StrDict)

/-- `ns_map.get(ns_name, {})`. -/
def nsMapGetD (m : NsMap) (k : String) : StrDict :=
  match m with
  | [] => []
  | (k', v) :: rest => if k' = k then v else nsMapGetD rest k

/-- `namespace_group_name` (homer_sync.py:122-127): a non-empty group
annotation wins, else title-case the namespace name with hyphens as spaces. -/
def namespace_group_name (ns_name : String) (ns_anns : StrDict) : String :=
  let override := dictGetD ns_anns (annRoot ++ "/group") ""
  if override ≠ "" then override
  else pyTitle (pyReplaceDash ns_name)

/-- `namespace_group_icon` (homer_sync.py:130-132). -/
def namespace_group_icon (ns_anns : StrDict) : String :=
  dictGetD ns_anns (annRoot ++ "/group-icon") "fas fa-globe"

/-! ## Item extraction (homer_sync.py:208-255) -/

/-- `ServiceItem` (homer_sync.py:85-93). -/
structure ServiceItem where
  name : String
  subtitle : String
  url : String
  icon : String
  group : String
  group_icon : String
  sort : Int
deriving DecidableEq, Repr

/-- The namespace scan of homer_sync.py:234-240: walk `ns_map.values()` and
take the icon of the first namespace whose computed candidate equals the
group; default otherwise.  Note the source computes the candidate as
`namespace_group_name(ns_name, other_ns_annotations)` — with the route's own
namespace name, not the scanned namespace's name (homer_sync.py:237). -/
def scanNamespaces (ns_name group : String) : List StrDict → String
  | [] => "fas fa-globe"
  | other_ns_anns :: rest =>
    if namespace_group_name ns_name other_ns_anns = group then
      namespace_group_icon other_ns_anns
    else
      scanNamespaces ns_name group rest

/-- The group-resolution block of `extract_item` (homer_sync.py:227-245):
returns the resolved group name and the updated group icon cache. -/
def resolveGroup (anns : StrDict) (ns_name : String) (ns_map : NsMap)
    (group_icon_cache : StrDict) : String × StrDict :=
  let ns_anns := nsMapGetD ns_map ns_name
  let group_override := dictGetD anns (annRoot ++ "/group") ""
  if group_override ≠ "" then
    if (dictGet? group_icon_cache group_override).isNone then
      (group_override,
       dictSet group_icon_cache group_override
         (scanNamespaces ns_name group_override (ns_map.map Prod.snd)))
    else
      (group_override, group_icon_cache)
  else
    let group := namespace_group_name ns_name ns_anns
    if (dictGet? group_icon_cache group).isNone then
      (group, dictSet group_icon_cache group (namespace_group_icon ns_anns))
    else
      (group, group_icon_cache)

/-- `extract_item` (homer_sync.py:208-255): build a `ServiceItem` from a
route, the namespace map and the per-cycle group icon cache; `none` when the
route has no hostnames.  The cache is threaded explicitly in place of the
mutated Python argument. -/
def extract_item (route : Route) (ns_map : NsMap) (group_icon_cache : StrDict) :
    Except PyErr (Option ServiceItem × StrDict) := do
  let anns ← routeAnns route
  let ns_name :=
    match route.metadata with
    | some (some m) => m.ns.getD "default"
    | _ => "default"
  let route_name :=
    match route.metadata with
    | some (some m) => m.name.getD ""
    | _ => ""
  let hostnames ← getHostnames route
  match hostnames with
  | [] => return (none, group_icon_cache)
  | h :: _ =>
    let url := "https://" ++ h
    let (group, cache') := resolveGroup anns ns_name ns_map group_icon_cache
    let gIcon ←
      match dictGet? cache' group with
      | some v => pure v
      | none => throw PyErr.keyError
    let sortVal ← pyInt (dictGetD anns (annRoot ++ "/sort") "0")
    return (some {
      name := dictGetD anns (annRoot ++ "/name") route_name,
      subtitle := dictGetD anns (annRoot ++ "/subtitle") "",
      url := url,
      icon := dictGetD anns (annRoot ++ "/icon") "",
      group := group,
      group_icon := gIcon,
      sort := sortVal }, cache')

/-! ## The per-cycle collection loop (homer_sync.py:356-364) -/

/-- The route loop of `run_once` (homer_sync.py:359-364): filter, extract,
append; any exception propagates and aborts the cycle. -/
def collectGo (cfg : Config) (ns_map : NsMap) :
    List Route → StrDict → List ServiceItem → Except PyErr (List ServiceItem)
  | [], _, items => .ok items
  | r :: rs, cache, items =>
    match should_include r cfg with
    | .error e => .error e
    | .ok false => collectGo cfg ns_map rs cache items
    | .ok true =>
      match extract_item r ns_map cache with
      | .error e => .error e
      | .ok (none, cache') => collectGo cfg ns_map rs cache' items
      | .ok (some it, cache') => collectGo cfg ns_map rs cache' (items ++ [it])

/-- One cycle's item collection, starting from the fresh empty cache of
homer_sync.py:356. -/
def collectItems (cfg : Config) (ns_map : NsMap) (routes : List Route) :
    Except PyErr (List ServiceItem) :=
  collectGo cfg ns_map routes [] []

/-! ## Renderer grouping and ordering (homer_sync.py:287-294) -/

/-- Lexicographic less-or-equal on char lists by code point, Python's string
comparison. -/
def strLe : List Char → List Char → Bool
  | [], _ => true
  | _ :: _, [] => false
  | a :: as, b :: bs =>
    if a.toNat < b.toNat then true
    else if b.toNat < a.toNat then false
    else strLe as bs

/-- Python `s1 <= s2` on strings. -/
def pyStrLe (a b : String) : Bool :=
  strLe a.data b.data

/-- The Python sort key comparison of homer_sync.py:294: tuples
`(i.sort, i.name)` compared lexicographically. -/
def itemLe (a b : ServiceItem) : Bool :=
  decide (a.sort < b.sort) || (decide (a.sort = b.sort) && pyStrLe a.name b.name)

/-- `groups.setdefault(item.group, []).append(item)` over an
insertion-ordered dict (homer_sync.py:290-292). -/
def addToGroups (gs : List (String × List ServiceItem)) (it : ServiceItem) :
    List (String × List ServiceItem) :=
  match gs with
  | [] => [(it.group, [it])]
  | (g, l) :: rest =>
    if g = it.group then (g, l ++ [it]) :: rest else (g, l) :: addToGroups rest it

/-- The grouping pass of `render_config` before sorting. -/
def rawGroups (items : List ServiceItem) : List (String × List ServiceItem) :=
  items.foldl addToGroups []

/-- Insert an item into an already sorted list, after every element that
compares less-or-equal: the insertion step of a stable sort under `itemLe`. -/
def insertSorted (it : ServiceItem) : List ServiceItem → List ServiceItem
  | [] => [it]
  | x :: xs => if itemLe x it then x :: insertSorted it xs else it :: x :: xs

/-- Python's stable `list.sort(key=lambda i: (i.sort, i.name))`
(homer_sync.py:294), modelled as a stable insertion sort under `itemLe`. -/
def pySortItems (l : List ServiceItem) : List ServiceItem :=
  l.foldl (fun acc x => insertSorted x acc) []

/-- The grouped, per-group stably sorted structure `render_config` hands to
the template (homer_sync.py:290-294). -/
def groupItems (items : List ServiceItem) : List (String × List ServiceItem) :=
  (rawGroups items).map (fun gl => (gl.1, pySortItems gl.2))

/-! ## ConfigMap publish (homer_sync.py:311-341) -/

/-- The fields of a `V1ObjectMeta` relevant here. -/
structure V1ObjectMeta where
  name : Option String
  ns : Option String
  labels : Option StrDict
  anns : Option StrDict
deriving DecidableEq, Repr

/-- A `V1ConfigMap` with its sibling fields next to `data`. -/
structure V1ConfigMap where
  metadata : Option V1ObjectMeta
  data : Option StrDict
  binaryData : Option StrDict
  immutable : Option Bool
deriving DecidableEq, Repr

/-- The text currently stored under the fixed key:
`(existing.data or {}).get("config.yml", "")` (homer_sync.py:322). -/
def storedText (cm : V1ConfigMap) : String :=
  dictGetD (cm.data.getD []) "config.yml" ""

/-- `sync_configmap` (homer_sync.py:315-341) on the success path of the API:
the cluster state is the optional existing ConfigMap (`none` answers the read
with a 404), and the second component counts write calls
(`replace_namespaced_config_map` / `create_namespaced_config_map`). -/
def sync_configmap (st : Option V1ConfigMap) (cfg : Config) (rendered : String) :
    Option V1ConfigMap × Nat :=
  match st with
  | some existing =>
    if _config_hash (storedText existing) = _config_hash rendered then
      (some existing, 0)
    else
      (some { existing with data := some [("config.yml", rendered)] }, 1)
  | none =>
    (some {
      metadata := some {
        name := some cfg.configmap_name,
        ns := some cfg.configmap_namespace,
        labels := none,
        anns := none },
      data := some [("config.yml", rendered)],
      binaryData := none,
      immutable := none }, 1)

/-- The stored object already holds text with the proposed digest
(the no-write condition of homer_sync.py:323). -/
def upToDate (st : Option V1ConfigMap) (rendered : String) : Prop :=
  match st with
  | some cm => _config_hash (storedText cm) = _config_hash rendered
  | none => False

/-! ## Helper lemmas on dict operations -/

theorem dictGet?_dictSet_self (d : StrDict) (k v : String) :
    dictGet? (dictSet d k v) k = some v := by
  induction d with
  | nil => simp [dictSet, dictGet?]
  | cons hd tl ih =>
    obtain ⟨k', v'⟩ := hd
    by_cases h : k' = k
    · simp [dictSet, dictGet?, h]
    · simp [dictSet, dictGet?, h, ih]

theorem dictGet?_dictSet_of_ne (d : StrDict) (k v k' : String) (h : k' ≠ k) :
    dictGet? (dictSet d k v) k' = dictGet? d k' := by
  induction d with
  | nil => simp [dictSet, dictGet?, Ne.symm h]
  | cons hd tl ih =>
    obtain ⟨k₀, v₀⟩ := hd
    by_cases h₀ : k₀ = k
    · subst h₀
      simp [dictSet, dictGet?, Ne.symm h]
    · simp [dictSet, dictGet?, h₀, ih]

/-- The group returned by `resolveGroup` always has a cache entry in the
returned cache (homer_sync.py:233-245 insert on miss). -/
theorem resolveGroup_lookup (anns : StrDict) (n : String) (m : NsMap) (c : StrDict) :
    ∃ v, dictGet? (resolveGroup anns n m c).2 (resolveGroup anns n m c).1 = some v := by
  by_cases hov : dictGetD anns (annRoot ++ "/group") "" = ""
  · cases hc : dictGet? c (namespace_group_name n (nsMapGetD m n)) with
    | none =>
      exact ⟨namespace_group_icon (nsMapGetD m n),
        by simp [resolveGroup, hov, hc, dictGet?_dictSet_self]⟩
    | some v => exact ⟨v, by simp [resolveGroup, hov, hc]⟩
  · cases hc : dictGet? c (dictGetD anns (annRoot ++ "/group") "") with
    | none =>
      exact ⟨scanNamespaces n (dictGetD anns (annRoot ++ "/group") "") (m.map Prod.snd),
        by simp [resolveGroup, hov, hc, dictGet?_dictSet_self]⟩
    | some v => exact ⟨v, by simp [resolveGroup, hov, hc]⟩

/-- `resolveGroup` never overwrites or removes an existing cache entry
(both branches of homer_sync.py:233-245 insert only on a cache miss). -/
theorem resolveGroup_preserves (anns : StrDict) (n : String) (m : NsMap) (c : StrDict)
    (g v : String) (h : dictGet? c g = some v) :
    dictGet? (resolveGroup anns n m c).2 g = some v := by
  by_cases hov : dictGetD anns (annRoot ++ "/group") "" = ""
  · cases hc : dictGet? c (namespace_group_name n (nsMapGetD m n)) with
    | none =>
      have hne : g ≠ namespace_group_name n (nsMapGetD m n) := by
        intro he
        rw [he, hc] at h
        exact Option.noConfusion h
      simp only [resolveGroup, hov]
      simp [hc, dictGet?_dictSet_of_ne _ _ _ _ hne, h]
    | some w =>
      simp [resolveGroup, hov, hc, h]
  · cases hc : dictGet? c (dictGetD anns (annRoot ++ "/group") "") with
    | none =>
      have hne : g ≠ dictGetD anns (annRoot ++ "/group") "" := by
        intro he
        rw [he, hc] at h
        exact Option.noConfusion h
      simp only [resolveGroup, hov]
      simp [hov, hc, dictGet?_dictSet_of_ne _ _ _ _ hne, h]
    | some w =>
      simp [resolveGroup, hov, hc, h]

/-! ## Concrete fixtures -/

/-- A process configuration with no filters configured (opt-in mode), with
the source's documented defaults. -/
def cfgFix : Config :=
  { gateway_names := [], domain_suffixes := [], configmap_name := "homer-config",
    configmap_namespace := "default", daemon_mode := true, scan_interval := 300,
    log_level := "INFO", title := "Home Dashboard", subtitle := "", columns := 5,
    template_path := "" }

/-- Annotations of a namespace `media-apps` carrying only a group icon. -/
def nsAnnsMedia : StrDict := [(annRoot ++ "/group-icon", "fas fa-film")]

/-- Two namespaces: the route's own `web` (no annotations) and `media-apps`
whose derived group name is `Media Apps` with icon `fas fa-film`. -/
def nsMapC1 : NsMap := [("web", []), ("media-apps", nsAnnsMedia)]

/-- A route in namespace `web` that overrides its group to `Media Apps`. -/
def rtC1 : Route :=
  { metadata := some (some
      { ns := some "web",
        name := some "app",
        anns := some (some [(annRoot ++ "/group", "Media Apps")]) }),
    spec := some (some
      { parentRefs := none,
        hostnames := some (some ["app.example.com"]) }) }

/-- C1: a route overrides its group to `Media Apps` while a namespace
`media-apps` (whose derived group name is exactly `Media Apps`, with icon
`fas fa-film`) exists; the claim and the source's own comment
(homer_sync.py:231-234) demand that namespace's icon, but the scan at
homer_sync.py:237 derives every candidate from the route's own namespace
name (`ns_name`) instead of the scanned namespace's name, so no candidate
matches and the item gets the default icon `fas fa-globe`. -/
theorem c1_group_override_icon_scan :
    extract_item rtC1 nsMapC1 [] = .ok (some
      { name := "app", subtitle := "", url := "https://app.example.com", icon := "",
        group := "Media Apps", group_icon := "fas fa-globe", sort := 0 },
      [("Media Apps", "fas fa-globe")]) ∧
    namespace_group_name "media-apps" nsAnnsMedia = "Media Apps" ∧
    namespace_group_icon nsAnnsMedia = "fas fa-film" :=
  ⟨rfl, rfl, rfl⟩

/-- C8 counterexample: a group-icon annotation that is present with an
empty-string value is returned as-is (Python `d.get(k, default)` only covers
absence), not replaced by the default icon as the claim states. -/
theorem c8_group_icon_counterexample :
    namespace_group_icon [(annRoot ++ "/group-icon", "")] = "" ∧
    namespace_group_icon [(annRoot ++ "/group-icon", "")] ≠ "fas fa-globe" :=
  ⟨rfl, by decide⟩

/-- C8 amended: `namespace_group_icon` returns the annotation's value
whenever the key is present — including the empty string — and the default
`fas fa-globe` exactly when the key is absent. -/
theorem c8_group_icon_amended (d : StrDict) :
    (dictGet? d (annRoot ++ "/group-icon") = none →
      namespace_group_icon d = "fas fa-globe") ∧
    (∀ v, dictGet? d (annRoot ++ "/group-icon") = some v →
      namespace_group_icon d = v) := by
  constructor
  · intro h
    simp [namespace_group_icon, dictGetD, h]
  · intro v h
    simp [namespace_group_icon, dictGetD, h]

/-- C8 witness: the amended statement evaluated on an absent key and on a
present key. -/
theorem c8_group_icon_witness :
    namespace_group_icon [] = "fas fa-globe" ∧
    namespace_group_icon [(annRoot ++ "/group-icon", "mdi-film")] = "mdi-film" :=
  ⟨(c8_group_icon_amended []).1 rfl,
   (c8_group_icon_amended [(annRoot ++ "/group-icon", "mdi-film")]).2 "mdi-film" rfl⟩

/-- C5: the publish step is idempotent on content: matching digests mean no
write and an unchanged state; non-matching digests (or no existing object)
mean exactly one write; and a second call with the same manifest text always
performs zero writes. -/
theorem c5_publish_idempotent (st : Option V1ConfigMap) (cfg : Config) (rendered : String) :
    (upToDate st rendered → sync_configmap st cfg rendered = (st, 0)) ∧
    (¬ upToDate st rendered → (sync_configmap st cfg rendered).2 = 1) ∧
    (sync_configmap (sync_configmap st cfg rendered).1 cfg rendered).2 = 0 := by
  cases st with
  | none =>
    refine ⟨fun h => h.elim, fun _ => rfl, ?_⟩
    simp [sync_configmap, storedText, dictGetD, dictGet?]
  | some cm =>
    by_cases h : _config_hash (storedText cm) = _config_hash rendered
    · exact ⟨fun _ => by simp [sync_configmap, h],
        fun hn => absurd h hn,
        by simp [sync_configmap, h]⟩
    · refine ⟨fun hu => absurd hu h, fun _ => by simp [sync_configmap, h], ?_⟩
      simp only [sync_configmap, if_neg h]
      simp [storedText, dictGetD, dictGet?]

/-- A stored ConfigMap whose text is already `x`. -/
def cmC5 : V1ConfigMap :=
  { metadata := none, data := some [("config.yml", "x")], binaryData := none,
    immutable := none }

/-- C5 witness: publishing `x` over a stored `x` writes nothing; publishing
`x` with no stored object writes once. -/
theorem c5_publish_idempotent_witness :
    sync_configmap (some cmC5) cfgFix "x" = (some cmC5, 0) ∧
    (sync_configmap none cfgFix "x").2 = 1 :=
  ⟨(c5_publish_idempotent (some cmC5) cfgFix "x").1
     (by simp [upToDate, storedText, dictGetD, dictGet?]),
   (c5_publish_idempotent none cfgFix "x").2.1 (fun hf => hf)⟩

/-- A stored ConfigMap with labels, an `immutable` flag and a second `data`
entry besides the managed `config.yml` key. -/
def cmC6 : V1ConfigMap :=
  { metadata := some
      { name := some "homer-config", ns := some "default",
        labels := some [("app", "homer")], anns := none },
    data := some [("config.yml", "old"), ("extra.txt", "keep")],
    binaryData := none,
    immutable := some false }

/-- C6 counterexample: on a digest mismatch the source replaces the whole
`data` mapping with a single-entry mapping (homer_sync.py:327), so the
sibling entry `extra.txt` of the data mapping is dropped, contrary to the
claim that every other entry of the data mapping is preserved. -/
theorem c6_frame_counterexample :
    dictGet? (cmC6.data.getD []) "extra.txt" = some "keep" ∧
    sync_configmap (some cmC6) cfgFix "new" =
      (some { cmC6 with data := some [("config.yml", "new")] }, 1) ∧
    dictGet? ((some [("config.yml", "new")] : Option StrDict).getD []) "extra.txt" = none := by
  refine ⟨rfl, ?_, rfl⟩
  decide

/-- C6 amended: on a digest mismatch, every field of the existing object
outside `data` (metadata, binaryData, immutable) is preserved as-is, while
the `data` mapping is replaced wholesale by the single-entry mapping holding
the new manifest under the fixed key. -/
theorem c6_frame_amended (cm : V1ConfigMap) (cfg : Config) (rendered : String)
    (h : ¬ upToDate (some cm) rendered) :
    sync_configmap (some cm) cfg rendered =
      (some { cm with data := some [("config.yml", rendered)] }, 1) := by
  have h' : ¬ _config_hash (storedText cm) = _config_hash rendered := h
  simp [sync_configmap, h']

/-- C6 witness: the amended statement on the concrete stored object. -/
theorem c6_frame_witness :
    sync_configmap (some cmC6) cfgFix "new" =
      (some { cmC6 with data := some [("config.yml", "new")] }, 1) :=
  c6_frame_amended cmC6 cfgFix "new" (by
    show ¬ _config_hash (storedText cmC6) = _config_hash "new"
    decide)

/-- C7: in opt-in mode (no filters configured), `should_include` returns
exactly the case-insensitive comparison of the enable annotation with
`true`; any other value — absent, `false`, malformed — yields `false`.
Routes with a `null` metadata value are excluded from the statement since
they raise (see the C4 theorems). -/
theorem c7_opt_in_iff (cfg : Config) (r : Route)
    (hf : cfg.has_filters = false) (hm : r.metadata ≠ some none) :
    should_include r cfg =
      .ok (decide (pyLower (dictGetD (routeAnnsD r) (annRoot ++ "/enabled") "") = "true")) ∧
    (should_include r cfg = .ok true ↔
      pyLower (dictGetD (routeAnnsD r) (annRoot ++ "/enabled") "") = "true") := by
  have heq : should_include r cfg =
      .ok (decide (pyLower (dictGetD (routeAnnsD r) (annRoot ++ "/enabled") "") = "true")) := by
    obtain ⟨md, sp⟩ := r
    match md with
    | none => simp [should_include, routeAnns, routeAnnsD, hf]
    | some none => exact absurd rfl hm
    | some (some m) =>
      match hA : m.anns with
      | some (some d) => simp [should_include, routeAnns, routeAnnsD, hf, hA]
      | some none => simp [should_include, routeAnns, routeAnnsD, hf, hA]
      | none => simp [should_include, routeAnns, routeAnnsD, hf, hA]
  refine ⟨heq, ?_⟩
  rw [heq]
  simp [Except.ok.injEq]

/-- An opt-in route with the enable annotation spelled `TRUE`. -/
def rtC7 : Route :=
  { metadata := some (some
      { ns := some "tools", name := some "wiki",
        anns := some (some [(annRoot ++ "/enabled", "TRUE")]) }),
    spec := none }

/-- C7 witness: with no filters configured, the `TRUE`-annotated route is
included. -/
theorem c7_opt_in_iff_witness :
    should_include rtC7 cfgFix = .ok true ∧ cfgFix.has_filters = false :=
  ⟨(c7_opt_in_iff cfgFix rtC7 rfl (by decide)).2.mpr rfl, rfl⟩

/-- C4 counterexample: a route whose metadata key holds `null` makes
`should_include` raise `AttributeError` (homer_sync.py:155 calls `.get` on
`None`), so the function is not total on all route dictionaries as claimed. -/
theorem c4_total_counterexample :
    should_include { metadata := some none, spec := none } cfgFix =
      .error .attributeError :=
  rfl

/-- C4 amended: `should_include` is pure and returns a boolean without
raising provided the route's metadata is a mapping that contains the
namespace and name keys and the spec key is not `null`; outside that shape
it can raise (`AttributeError` on a `null` metadata or — on a filtered
branch — a `null` spec, `KeyError` from the logging subscripts of an
exclusion branch when metadata lacks namespace or name). -/
theorem exceptPureEq {α : Type} (a : α) : (pure a : Except PyErr α) = Except.ok a := rfl

theorem exceptBindOk {α β : Type} (a : α) (f : α → Except PyErr β) :
    (Except.ok a >>= f : Except PyErr β) = f a := rfl

theorem exceptBindErr {α β : Type} (e : PyErr) (f : α → Except PyErr β) :
    ((Except.error e : Except PyErr α) >>= f : Except PyErr β) = Except.error e := rfl

theorem c4_total_amended (cfg : Config) (m : RouteMeta)
    (sp : Option (Option RouteSpec)) (x y : String)
    (hx : m.ns = some x) (hy : m.name = some y) (hsp : sp ≠ some none) :
    ∃ b, should_include ⟨some (some m), sp⟩ cfg = .ok b := by
  obtain ⟨mns, mname, manns⟩ := m
  cases hx
  cases hy
  simp only [should_include, routeAnns, getParentRefs, getHostnames, subscriptMetaNsName,
    exceptBindOk, exceptBindErr, exceptPureEq]
  repeat' (first | split | simp only [exceptBindOk, exceptBindErr, exceptPureEq])
  all_goals first
    | exact ⟨_, rfl⟩
    | exact absurd rfl hsp

/-- C4 witness: the amended statement on a concrete well-shaped route under
an opt-out configuration. -/
theorem c4_total_amended_witness :
    ∃ b, should_include
      ⟨some (some ⟨some "ns1", some "app1", none⟩),
       some (some ⟨none, some (some ["a.example.com"])⟩)⟩
      { cfgFix with domain_suffixes := ["example.com"] } = .ok b :=
  c4_total_amended { cfgFix with domain_suffixes := ["example.com"] }
    ⟨some "ns1", some "app1", none⟩
    (some (some ⟨none, some (some ["a.example.com"])⟩))
    "ns1" "app1" rfl rfl (by decide)

/-- A route's annotations step never fails when its metadata is a mapping,
and then agrees with `routeAnnsD`. -/
theorem routeAnns_ok_of_meta (a b : Option String) (manns : Option (Option StrDict))
    (sp : Option (Option RouteSpec)) :
    routeAnns ⟨some (some ⟨a, b, manns⟩), sp⟩ =
      .ok (routeAnnsD ⟨some (some ⟨a, b, manns⟩), sp⟩) := by
  match manns with
  | none => rfl
  | some none => rfl
  | some (some d) => rfl

/-- C3 counterexample: with a hostname-suffix allow-list configured (opt-out
mode) and no other exclusion applying, a route with an empty hostname list is
excluded by `should_include` (the suffix match over zero hostnames is
vacuously false, homer_sync.py:182-196), contradicting the claim that zero
hostnames never cause exclusion at the filter stage. -/
theorem c3_empty_hostnames_counterexample :
    should_include
      ⟨some (some ⟨some "ns1", some "app1", none⟩),
       some (some ⟨none, some (some [])⟩)⟩
      { cfgFix with domain_suffixes := ["example.com"] } = .ok false :=
  rfl

/-- C3 amended: a route with zero hostnames is never excluded because of its
hostnames when the hostname-suffix allow-list is empty (the filter result
does not depend on the hostnames field at all then); but when the suffix
allow-list is non-empty and the route is not otherwise excluded, a route with
zero hostnames is excluded at the filter stage. -/
theorem c3_empty_hostnames_amended :
    (∀ (cfg : Config) (md : Option (Option RouteMeta)) (sd : RouteSpec)
       (hn : Option (Option (List String))),
       cfg.domain_suffixes = [] →
       should_include ⟨md, some (some sd)⟩ cfg =
         should_include ⟨md, some (some { sd with hostnames := hn })⟩ cfg) ∧
    (∀ (cfg : Config) (m : RouteMeta) (sd : RouteSpec) (x y : String),
       m.ns = some x → m.name = some y →
       cfg.gateway_names = [] → cfg.domain_suffixes ≠ [] →
       pyLower (dictGetD (routeAnnsD ⟨some (some m), some (some sd)⟩)
         (annRoot ++ "/enabled") "") ≠ "false" →
       getHostnames ⟨some (some m), some (some sd)⟩ = .ok [] →
       should_include ⟨some (some m), some (some sd)⟩ cfg = .ok false) := by
  constructor
  · intro cfg md sd hn hds
    simp [should_include, routeAnns, getParentRefs, getHostnames, subscriptMetaNsName, hds]
  · intro cfg m sd x y hx hy hgw hds hen hH
    obtain ⟨mns, mname, manns⟩ := m
    cases hx
    cases hy
    cases hys : cfg.domain_suffixes with
    | nil => exact absurd hys hds
    | cons d0 ds' =>
      have hfil : cfg.has_filters = true := by
        simp [Config.has_filters, hys]
      simp only [should_include, routeAnns_ok_of_meta, exceptBindOk, hfil, if_true]
      rw [if_neg hen]
      simp only [hgw, hys, List.isEmpty_nil, Bool.not_true, Bool.false_eq_true, if_false,
        List.isEmpty_cons, Bool.not_false, if_true, exceptBindOk, exceptPureEq]
      rw [hH]
      simp [subscriptMetaNsName, exceptBindOk, exceptPureEq]

/-- C3 witness: the amended statement evaluated concretely: with no suffix
filter the result ignores hostnames, and with a suffix filter a
zero-hostname route is excluded. -/
theorem c3_empty_hostnames_witness :
    should_include
      ⟨some (some ⟨some "ns1", some "app1", none⟩),
       some (some ⟨none, some (some ["a.example.com"])⟩)⟩ cfgFix =
    should_include
      ⟨some (some ⟨some "ns1", some "app1", none⟩),
       some (some ⟨none, some (some [])⟩)⟩ cfgFix ∧
    should_include
      ⟨some (some ⟨some "ns1", some "app1", none⟩),
       some (some ⟨none, some (some [])⟩)⟩
      { cfgFix with domain_suffixes := ["example.com"] } = .ok false :=
  ⟨c3_empty_hostnames_amended.1 cfgFix (some (some ⟨some "ns1", some "app1", none⟩))
     ⟨none, some (some ["a.example.com"])⟩ (some (some [])) rfl,
   c3_empty_hostnames_amended.2 { cfgFix with domain_suffixes := ["example.com"] }
     ⟨some "ns1", some "app1", none⟩ ⟨none, some (some [])⟩ "ns1" "app1"
     rfl rfl rfl (by decide) (by decide) rfl⟩

/-- An opt-in enabled route whose sort annotation is the unparseable string
`abc`. -/
def rtC2 : Route :=
  ⟨some (some ⟨some "tools", some "wiki",
     some (some [(annRoot ++ "/enabled", "true"), (annRoot ++ "/sort", "abc")])⟩),
   some (some ⟨none, some (some ["wiki.example.com"])⟩)⟩

/-- C2 counterexample: one included route with a malformed sort annotation
makes the cycle's collection loop abort with `ValueError` (the `int(...)` at
homer_sync.py:254 is uncaught in `extract_item` and in `run_once`) instead of
skipping that item and returning the empty item list. -/
theorem c2_malformed_sort_counterexample :
    collectItems cfgFix [] [rtC2] = .error .valueError :=
  rfl

/-- C2 amended: a present but unparseable sort annotation makes
`extract_item` raise `ValueError`, and any exception from `extract_item` on
an included route propagates out of the per-route loop, aborting the cycle's
collection with that error — the item is not skipped. -/
theorem c2_malformed_sort_amended :
    (∀ (nsv namev : String) (annsv : StrDict) (pr : Option (Option (List ParentRef)))
       (h : String) (hs : List String) (nsm : NsMap) (cache : StrDict),
       pyInt (dictGetD annsv (annRoot ++ "/sort") "0") = .error .valueError →
       extract_item ⟨some (some ⟨some nsv, some namev, some (some annsv)⟩),
         some (some ⟨pr, some (some (h :: hs))⟩)⟩ nsm cache = .error .valueError) ∧
    (∀ (cfg : Config) (nsm : NsMap) (r : Route) (rs : List Route)
       (cache : StrDict) (items : List ServiceItem) (e : PyErr),
       should_include r cfg = .ok true →
       extract_item r nsm cache = .error e →
       collectGo cfg nsm (r :: rs) cache items = .error e) := by
  constructor
  · intro nsv namev annsv pr h hs nsm cache hpy
    obtain ⟨v, hv⟩ := resolveGroup_lookup annsv nsv nsm cache
    simp [extract_item, routeAnns, getHostnames, exceptBindOk, exceptBindErr, exceptPureEq,
      hv, hpy]
  · intro cfg nsm r rs cache items e hsi hext
    simp [collectGo, hsi, hext]

/-- C2 witness: the amended statement on the concrete malformed route. -/
theorem c2_malformed_sort_witness :
    extract_item rtC2 [] [] = .error .valueError ∧
    collectGo cfgFix [] [rtC2] [] [] = .error .valueError :=
  ⟨c2_malformed_sort_amended.1 "tools" "wiki"
     [(annRoot ++ "/enabled", "true"), (annRoot ++ "/sort", "abc")]
     none "wiki.example.com" [] [] [] rfl,
   c2_malformed_sort_amended.2 cfgFix [] rtC2 [] [] [] .valueError rfl
     (c2_malformed_sort_amended.1 "tools" "wiki"
       [(annRoot ++ "/enabled", "true"), (annRoot ++ "/sort", "abc")]
       none "wiki.example.com" [] [] [] rfl)⟩

/-! ## Ordering lemmas for the renderer's sort key -/

theorem strLe_refl (l : List Char) : strLe l l = true := by
  induction l with
  | nil => rfl
  | cons c cs ih => simp [strLe, ih]

theorem strLe_cons_iff (x y : Char) (xs ys : List Char) :
    strLe (x :: xs) (y :: ys) = true ↔
      (x.toNat < y.toNat ∨ (x.toNat = y.toNat ∧ strLe xs ys = true)) := by
  simp only [strLe]
  by_cases h1 : x.toNat < y.toNat
  · simp [h1]
  · by_cases h2 : y.toNat < x.toNat
    · simp only [if_neg h1, if_pos h2]
      constructor
      · intro hf
        exact absurd hf (by simp)
      · rintro (hc | ⟨hc, _⟩)
        · exact absurd hc h1
        · exact absurd hc (by omega)
    · have he : x.toNat = y.toNat := by omega
      simp [h1, h2, he]

theorem strLe_total : ∀ (a b : List Char), strLe a b = true ∨ strLe b a = true
  | [], _ => Or.inl rfl
  | _ :: _, [] => Or.inr rfl
  | x :: xs, y :: ys => by
    rw [strLe_cons_iff, strLe_cons_iff]
    rcases Nat.lt_trichotomy x.toNat y.toNat with h | h | h
    · exact Or.inl (Or.inl h)
    · rcases strLe_total xs ys with h2 | h2
      · exact Or.inl (Or.inr ⟨h, h2⟩)
      · exact Or.inr (Or.inr ⟨h.symm, h2⟩)
    · exact Or.inr (Or.inl h)

theorem strLe_trans : ∀ (a b c : List Char),
    strLe a b = true → strLe b c = true → strLe a c = true
  | [], _, _, _, _ => rfl
  | _ :: _, [], _, h1, _ => by simp [strLe] at h1
  | _ :: _, _ :: _, [], _, h2 => by simp [strLe] at h2
  | x :: xs, y :: ys, z :: zs, h1, h2 => by
    rw [strLe_cons_iff] at h1 h2 ⊢
    rcases h1 with h1 | ⟨h1e, h1r⟩
    · rcases h2 with h2 | ⟨h2e, h2r⟩
      · exact Or.inl (by omega)
      · exact Or.inl (by omega)
    · rcases h2 with h2 | ⟨h2e, h2r⟩
      · exact Or.inl (by omega)
      · exact Or.inr ⟨by omega, strLe_trans _ _ _ h1r h2r⟩

theorem itemLe_iff (a b : ServiceItem) :
    itemLe a b = true ↔
      (a.sort < b.sort ∨ (a.sort = b.sort ∧ strLe a.name.data b.name.data = true)) := by
  simp [itemLe, pyStrLe]

theorem itemLe_total (a b : ServiceItem) : itemLe a b = true ∨ itemLe b a = true := by
  rw [itemLe_iff, itemLe_iff]
  rcases lt_trichotomy a.sort b.sort with h | h | h
  · exact Or.inl (Or.inl h)
  · rcases strLe_total a.name.data b.name.data with h2 | h2
    · exact Or.inl (Or.inr ⟨h, h2⟩)
    · exact Or.inr (Or.inr ⟨h.symm, h2⟩)
  · exact Or.inr (Or.inl h)

theorem itemLe_trans (a b c : ServiceItem)
    (h1 : itemLe a b = true) (h2 : itemLe b c = true) : itemLe a c = true := by
  rw [itemLe_iff] at h1 h2 ⊢
  rcases h1 with h1 | ⟨h1e, h1r⟩ <;> rcases h2 with h2 | ⟨h2e, h2r⟩
  · exact Or.inl (by omega)
  · exact Or.inl (by omega)
  · exact Or.inl (by omega)
  · exact Or.inr ⟨by omega, strLe_trans _ _ _ h1r h2r⟩

theorem itemLe_of_keys_eq (a b : ServiceItem)
    (hs : a.sort = b.sort) (hn : a.name = b.name) : itemLe a b = true := by
  rw [itemLe_iff]
  exact Or.inr ⟨hs, hn ▸ strLe_refl _⟩

theorem mem_insertSorted (it : ServiceItem) (l : List ServiceItem) (x : ServiceItem) :
    x ∈ insertSorted it l ↔ x = it ∨ x ∈ l := by
  induction l with
  | nil => simp [insertSorted]
  | cons y ys ih =>
    by_cases h : itemLe y it = true
    · simp only [insertSorted, if_pos h, List.mem_cons, ih]
      tauto
    · simp only [insertSorted, if_neg h, List.mem_cons]

theorem insertSorted_pairwise (it : ServiceItem) (l : List ServiceItem)
    (hl : l.Pairwise (fun a b => itemLe a b = true)) :
    (insertSorted it l).Pairwise (fun a b => itemLe a b = true) := by
  induction l with
  | nil => simp [insertSorted]
  | cons y ys ih =>
    rcases List.pairwise_cons.mp hl with ⟨hy, hys⟩
    by_cases h : itemLe y it = true
    · simp only [insertSorted, if_pos h]
      refine List.Pairwise.cons ?_ (ih hys)
      intro z hz
      rcases (mem_insertSorted it ys z).mp hz with rfl | hz'
      · exact h
      · exact hy z hz'
    · simp only [insertSorted, if_neg h]
      refine List.Pairwise.cons ?_ hl
      intro z hz
      have hy' : itemLe it y = true := by
        rcases itemLe_total it y with h2 | h2
        · exact h2
        · exact absurd h2 h
      rcases List.mem_cons.mp hz with rfl | hz'
      · exact hy'
      · exact itemLe_trans _ _ _ hy' (hy z hz')

theorem foldl_insert_pairwise :
    ∀ (l acc : List ServiceItem), acc.Pairwise (fun a b => itemLe a b = true) →
      (l.foldl (fun a x => insertSorted x a) acc).Pairwise (fun a b => itemLe a b = true)
  | [], _, h => h
  | x :: xs, acc, h => foldl_insert_pairwise xs _ (insertSorted_pairwise x acc h)

theorem pySortItems_sorted (l : List ServiceItem) :
    (pySortItems l).Pairwise (fun a b => itemLe a b = true) :=
  foldl_insert_pairwise l [] List.Pairwise.nil

theorem insertSorted_perm (it : ServiceItem) (l : List ServiceItem) :
    List.Perm (insertSorted it l) (it :: l) := by
  induction l with
  | nil => exact List.Perm.refl _
  | cons y ys ih =>
    by_cases h : itemLe y it = true
    · simp only [insertSorted, if_pos h]
      exact (ih.cons y).trans (List.Perm.swap it y ys)
    · simp only [insertSorted, if_neg h]
      exact List.Perm.refl _

theorem foldl_insert_perm :
    ∀ (l acc : List ServiceItem),
      List.Perm (l.foldl (fun a x => insertSorted x a) acc) (acc ++ l)
  | [], acc => by simp
  | x :: xs, acc => by
    have h1 := foldl_insert_perm xs (insertSorted x acc)
    have h2 : List.Perm (insertSorted x acc ++ xs) ((x :: acc) ++ xs) :=
      (insertSorted_perm x acc).append_right xs
    exact h1.trans (h2.trans List.perm_middle.symm)

theorem pySortItems_perm (l : List ServiceItem) : List.Perm (pySortItems l) l := by
  simpa [pySortItems] using foldl_insert_perm l []

theorem filter_insertSorted_of_not_key (s : Int) (n : String) (it : ServiceItem)
    (l : List ServiceItem)
    (hp : (decide (it.sort = s) && decide (it.name = n)) = false) :
    (insertSorted it l).filter (fun x => decide (x.sort = s) && decide (x.name = n)) =
      l.filter (fun x => decide (x.sort = s) && decide (x.name = n)) := by
  induction l with
  | nil => simp [insertSorted, List.filter, hp]
  | cons y ys ih =>
    by_cases h : itemLe y it = true
    · simp only [insertSorted, if_pos h, List.filter_cons, ih]
    · simp only [insertSorted, if_neg h, List.filter_cons, hp]
      simp [hp]

theorem filter_insertSorted_of_key (s : Int) (n : String) (it : ServiceItem)
    (l : List ServiceItem) (hl : l.Pairwise (fun a b => itemLe a b = true))
    (hs : it.sort = s) (hn : it.name = n) :
    (insertSorted it l).filter (fun x => decide (x.sort = s) && decide (x.name = n)) =
      l.filter (fun x => decide (x.sort = s) && decide (x.name = n)) ++ [it] := by
  induction l with
  | nil => simp [insertSorted, List.filter, hs, hn]
  | cons y ys ih =>
    rcases List.pairwise_cons.mp hl with ⟨hy, hys⟩
    by_cases h : itemLe y it = true
    · simp only [insertSorted, if_pos h, List.filter_cons]
      rw [ih hys]
      by_cases hpy : (decide (y.sort = s) && decide (y.name = n)) = true
      · simp [hpy]
      · simp [hpy]
    · have hnone : ∀ z ∈ y :: ys, (decide (z.sort = s) && decide (z.name = n)) = false := by
        intro z hz
        by_contra hzP
        rw [Bool.not_eq_false, Bool.and_eq_true, decide_eq_true_eq, decide_eq_true_eq] at hzP
        have hz_le : itemLe z it = true :=
          itemLe_of_keys_eq z it (hzP.1.trans hs.symm) (hzP.2.trans hn.symm)
        rcases List.mem_cons.mp hz with rfl | hz2
        · exact h hz_le
        · exact h (itemLe_trans _ _ _ (hy z hz2) hz_le)
      have hfil : (y :: ys).filter (fun x => decide (x.sort = s) && decide (x.name = n)) = [] := by
        rw [List.filter_eq_nil_iff]
        intro a ha
        simp [hnone a ha]
      simp only [insertSorted, if_neg h]
      rw [List.filter_cons, hfil]
      simp [hs, hn]

theorem filter_foldl_insert (s : Int) (n : String) :
    ∀ (l acc : List ServiceItem), acc.Pairwise (fun a b => itemLe a b = true) →
      (l.foldl (fun a x => insertSorted x a) acc).filter
          (fun x => decide (x.sort = s) && decide (x.name = n)) =
        acc.filter (fun x => decide (x.sort = s) && decide (x.name = n)) ++
          l.filter (fun x => decide (x.sort = s) && decide (x.name = n))
  | [], acc, _ => by simp
  | x :: xs, acc, h => by
    have hrec := filter_foldl_insert s n xs (insertSorted x acc) (insertSorted_pairwise x acc h)
    show (xs.foldl (fun a x => insertSorted x a) (insertSorted x acc)).filter _ = _
    rw [hrec]
    by_cases hx : (decide (x.sort = s) && decide (x.name = n)) = true
    · have hx' : x.sort = s ∧ x.name = n := by
        simpa [Bool.and_eq_true, decide_eq_true_eq] using hx
      rw [filter_insertSorted_of_key s n x acc h hx'.1 hx'.2, List.filter_cons]
      simp [hx]
    · have hx0 : (decide (x.sort = s) && decide (x.name = n)) = false := by
        revert hx
        cases (decide (x.sort = s) && decide (x.name = n)) <;> simp
      rw [filter_insertSorted_of_not_key s n x acc hx0, List.filter_cons]
      simp [hx0]

/-- Stability of the renderer's per-group sort: the items carrying any fixed
sort key and name appear in the sorted output in their original relative
order. -/
theorem pySortItems_stable (l : List ServiceItem) (s : Int) (n : String) :
    (pySortItems l).filter (fun x => decide (x.sort = s) && decide (x.name = n)) =
      l.filter (fun x => decide (x.sort = s) && decide (x.name = n)) := by
  simpa [pySortItems] using filter_foldl_insert s n l [] List.Pairwise.nil

/-- The three items of the claim's concrete example, in one group `g`. -/
def svcB : ServiceItem :=
  { name := "b", subtitle := "", url := "u", icon := "", group := "g",
    group_icon := "gi", sort := 0 }

/-- Same group, name `a`, sort 0. -/
def svcA : ServiceItem := { svcB with name := "a" }

/-- Same group, name `c`, sort -1. -/
def svcC : ServiceItem := { svcB with name := "c", sort := -1 }

/-- C9: the renderer's grouping orders each group's items by ascending sort
key with ties broken by ascending lexical name; the comparison is total, the
sorted group is a permutation of its members, the sort is stable (items with
equal key and name keep their relative order), and the concrete example
`b(0), a(0), c(-1)` renders in order `c, a, b`. -/
theorem c9_render_order :
    (∀ a b : ServiceItem, itemLe a b = true ∨ itemLe b a = true) ∧
    (∀ (items : List ServiceItem) (gl : String × List ServiceItem),
       gl ∈ groupItems items → gl.2.Pairwise (fun a b => itemLe a b = true)) ∧
    (∀ l : List ServiceItem, List.Perm (pySortItems l) l) ∧
    (∀ (l : List ServiceItem) (s : Int) (n : String),
       (pySortItems l).filter (fun x => decide (x.sort = s) && decide (x.name = n)) =
         l.filter (fun x => decide (x.sort = s) && decide (x.name = n))) ∧
    groupItems [svcB, svcA, svcC] = [("g", [svcC, svcA, svcB])] := by
  refine ⟨itemLe_total, ?_, pySortItems_perm, pySortItems_stable, by decide⟩
  intro items gl hmem
  simp only [groupItems, List.mem_map] at hmem
  obtain ⟨gl0, _, rfl⟩ := hmem
  exact pySortItems_sorted gl0.2

/-- C9 witness: the sortedness statement applied to the concrete example's
rendered group. -/
theorem c9_render_order_witness :
    List.Pairwise (fun a b => itemLe a b = true) [svcC, svcA, svcB] :=
  c9_render_order.2.1 [svcB, svcA, svcC] ("g", [svcC, svcA, svcB]) (by decide)

theorem exceptThrowEq {α : Type} (e : PyErr) : (throw e : Except PyErr α) = Except.error e := rfl

/-- Inversion of a successful `extract_item`: either the route was skipped
for lack of hostnames and the cache is untouched, or the returned cache is
the one produced by `resolveGroup` and the produced item's `group_icon` is
exactly the cache entry of its `group` (homer_sync.py:247-255). -/
theorem extract_item_ok_inv (r : Route) (nsm : NsMap) (c : StrDict)
    (res : Option ServiceItem) (c' : StrDict)
    (hok : extract_item r nsm c = .ok (res, c')) :
    (res = none ∧ c' = c) ∨
    (∃ anns nsn it, res = some it ∧ c' = (resolveGroup anns nsn nsm c).2 ∧
      dictGet? c' it.group = some it.group_icon) := by
  obtain ⟨md, sp⟩ := r
  match md, sp with
  | some none, _ =>
    simp [extract_item, routeAnns, exceptBindErr] at hok
  | none, some none =>
    simp [extract_item, routeAnns, getHostnames, exceptBindOk, exceptBindErr] at hok
  | some (some ⟨mns, mname, manns⟩), some none =>
    simp [extract_item, routeAnns_ok_of_meta, getHostnames, exceptBindOk, exceptBindErr] at hok
  | none, none =>
    simp only [extract_item, routeAnns, getHostnames, exceptBindOk, exceptPureEq,
      Except.ok.injEq, Prod.mk.injEq] at hok
    exact Or.inl ⟨hok.1.symm, hok.2.symm⟩
  | some (some ⟨mns, mname, manns⟩), none =>
    simp only [extract_item, routeAnns_ok_of_meta, getHostnames, exceptBindOk, exceptPureEq,
      Except.ok.injEq, Prod.mk.injEq] at hok
    exact Or.inl ⟨hok.1.symm, hok.2.symm⟩
  | none, some (some sd) =>
    match hH : sd.hostnames with
    | none | some none =>
      simp only [extract_item, routeAnns, getHostnames, hH, exceptBindOk, exceptPureEq,
        Except.ok.injEq, Prod.mk.injEq] at hok
      exact Or.inl ⟨hok.1.symm, hok.2.symm⟩
    | some (some []) =>
      simp only [extract_item, routeAnns, getHostnames, hH, exceptBindOk, exceptPureEq,
        Except.ok.injEq, Prod.mk.injEq] at hok
      exact Or.inl ⟨hok.1.symm, hok.2.symm⟩
    | some (some (h :: t)) =>
      simp only [extract_item, routeAnns, getHostnames, hH, exceptBindOk, exceptPureEq] at hok
      split at hok
      · rename_i v heq
        cases hpi : pyInt (dictGetD [] (annRoot ++ "/sort") "0") with
        | error e =>
          rw [hpi, exceptBindErr] at hok
          exact absurd hok (by simp)
        | ok z =>
          rw [hpi, exceptBindOk] at hok
          simp only [Except.ok.injEq, Prod.mk.injEq] at hok
          obtain ⟨hres, hc'⟩ := hok
          refine Or.inr ⟨[], "default", _, hres.symm, hc'.symm, ?_⟩
          rw [← hc']
          simpa using heq
      · rename_i heq
        rw [exceptThrowEq, exceptBindErr] at hok
        exact absurd hok (by simp)
  | some (some ⟨mns, mname, manns⟩), some (some sd) =>
    match hH : sd.hostnames with
    | none | some none =>
      simp only [extract_item, routeAnns_ok_of_meta, getHostnames, hH, exceptBindOk,
        exceptPureEq, Except.ok.injEq, Prod.mk.injEq] at hok
      exact Or.inl ⟨hok.1.symm, hok.2.symm⟩
    | some (some []) =>
      simp only [extract_item, routeAnns_ok_of_meta, getHostnames, hH, exceptBindOk,
        exceptPureEq, Except.ok.injEq, Prod.mk.injEq] at hok
      exact Or.inl ⟨hok.1.symm, hok.2.symm⟩
    | some (some (h :: t)) =>
      simp only [extract_item, routeAnns_ok_of_meta, getHostnames, hH, exceptBindOk,
        exceptPureEq] at hok
      split at hok
      · rename_i v heq
        cases hpi : pyInt (dictGetD (routeAnnsD ⟨some (some ⟨mns, mname, manns⟩), some (some sd)⟩)
            (annRoot ++ "/sort") "0") with
        | error e =>
          rw [hpi, exceptBindErr] at hok
          exact absurd hok (by simp)
        | ok z =>
          rw [hpi, exceptBindOk] at hok
          simp only [Except.ok.injEq, Prod.mk.injEq] at hok
          obtain ⟨hres, hc'⟩ := hok
          refine Or.inr ⟨_, _, _, hres.symm, hc'.symm, ?_⟩
          rw [← hc']
          simpa using heq
      · rename_i heq
        rw [exceptThrowEq, exceptBindErr] at hok
        exact absurd hok (by simp)

/-- A successful `extract_item` never overwrites or removes an existing
group icon cache entry. -/
theorem extract_item_cache_mono :
    ∀ (r : Route) (nsm : NsMap) (c : StrDict) (res : Option ServiceItem) (c' : StrDict),
      extract_item r nsm c = .ok (res, c') →
      ∀ g v, dictGet? c g = some v → dictGet? c' g = some v := by
  intro r nsm c res c' hok g v hg
  rcases extract_item_ok_inv r nsm c res c' hok with ⟨_, rfl⟩ | ⟨anns, nsn, it, _, rfl, _⟩
  · exact hg
  · exact resolveGroup_preserves anns nsn nsm c g v hg

/-- A produced item's `group_icon` is exactly the returned cache's entry for
its `group` (homer_sync.py:253). -/
theorem extract_item_icon_from_cache :
    ∀ (r : Route) (nsm : NsMap) (c : StrDict) (it : ServiceItem) (c' : StrDict),
      extract_item r nsm c = .ok (some it, c') →
      dictGet? c' it.group = some it.group_icon := by
  intro r nsm c it c' hok
  rcases extract_item_ok_inv r nsm c (some it) c' hok with ⟨hn, _⟩ | ⟨anns, nsn, it', hit, _, hlook⟩
  · exact absurd hn (by simp)
  · obtain rfl := Option.some.inj hit
    exact hlook

/-- Loop invariant of the collection loop: if every already collected item's
icon agrees with the current cache, then after the loop succeeds some final
cache agrees with every output item. -/
theorem collectGo_invariant :
    ∀ (cfg : Config) (nsm : NsMap) (routes : List Route) (cache : StrDict)
      (items out : List ServiceItem),
      collectGo cfg nsm routes cache items = .ok out →
      (∀ it ∈ items, dictGet? cache it.group = some it.group_icon) →
      ∃ cacheF, ∀ it ∈ out, dictGet? cacheF it.group = some it.group_icon
  | cfg, nsm, [], cache, items, out, hok, hinv => by
    simp only [collectGo] at hok
    obtain rfl := Except.ok.inj hok
    exact ⟨cache, hinv⟩
  | cfg, nsm, r :: rs, cache, items, out, hok, hinv => by
    simp only [collectGo] at hok
    split at hok
    · exact absurd hok (by simp)
    · exact collectGo_invariant cfg nsm rs cache items out hok hinv
    · split at hok
      · exact absurd hok (by simp)
      · rename_i cache' hext
        refine collectGo_invariant cfg nsm rs cache' items out hok ?_
        intro it hit
        exact extract_item_cache_mono r nsm cache none cache' hext it.group it.group_icon
          (hinv it hit)
      · rename_i itNew cache' hext
        refine collectGo_invariant cfg nsm rs cache' (items ++ [itNew]) out hok ?_
        intro it hit
        rcases List.mem_append.mp hit with h1 | h2
        · exact extract_item_cache_mono r nsm cache (some itNew) cache' hext it.group
            it.group_icon (hinv it h1)
        · obtain rfl := List.mem_singleton.mp h2
          exact extract_item_icon_from_cache r nsm cache it cache' hext

/-- C10: within one reconciliation cycle, the group icon cache is only ever
extended (an existing entry is never overwritten or removed), every produced
item reads its `group_icon` from the cache entry of its `group`, and hence
any two collected items with equal `group` have equal `group_icon`. -/
theorem c10_group_icon_consistent :
    (∀ (r : Route) (nsm : NsMap) (c : StrDict) (res : Option ServiceItem) (c' : StrDict),
       extract_item r nsm c = .ok (res, c') →
       ∀ g v, dictGet? c g = some v → dictGet? c' g = some v) ∧
    (∀ (r : Route) (nsm : NsMap) (c : StrDict) (it : ServiceItem) (c' : StrDict),
       extract_item r nsm c = .ok (some it, c') →
       dictGet? c' it.group = some it.group_icon) ∧
    (∀ (cfg : Config) (nsm : NsMap) (routes : List Route) (out : List ServiceItem),
       collectItems cfg nsm routes = .ok out →
       ∀ a ∈ out, ∀ b ∈ out, a.group = b.group → a.group_icon = b.group_icon) := by
  refine ⟨extract_item_cache_mono, extract_item_icon_from_cache, ?_⟩
  intro cfg nsm routes out hok a ha b hb hg
  obtain ⟨cacheF, hF⟩ := collectGo_invariant cfg nsm routes [] [] out hok (by simp)
  have h1 := hF a ha
  have h2 := hF b hb
  rw [hg] at h1
  exact Option.some.inj (h1.symm.trans h2)

/-- First of two enabled routes in namespace `tools`. -/
def rtW1 : Route :=
  ⟨some (some ⟨some "tools", some "wiki",
     some (some [(annRoot ++ "/enabled", "true")])⟩),
   some (some ⟨none, some (some ["wiki.example.com"])⟩)⟩

/-- Second of two enabled routes in namespace `tools`. -/
def rtW2 : Route :=
  ⟨some (some ⟨some "tools", some "grafana",
     some (some [(annRoot ++ "/enabled", "true")])⟩),
   some (some ⟨none, some (some ["grafana.example.com"])⟩)⟩

/-- The item extracted from `rtW1`. -/
def itW1 : ServiceItem :=
  { name := "wiki", subtitle := "", url := "https://wiki.example.com", icon := "",
    group := "Tools", group_icon := "fas fa-globe", sort := 0 }

/-- The item extracted from `rtW2`. -/
def itW2 : ServiceItem :=
  { name := "grafana", subtitle := "", url := "https://grafana.example.com", icon := "",
    group := "Tools", group_icon := "fas fa-globe", sort := 0 }

/-- C10 witness: the pairwise-equal-icon consequence applied to a concrete
two-route cycle whose items share the group `Tools`. -/
theorem c10_group_icon_consistent_witness : itW1.group_icon = itW2.group_icon :=
  c10_group_icon_consistent.2.2 cfgFix [] [rtW1, rtW2] [itW1, itW2] (by rfl)
    itW1 (by decide) itW2 (by decide) (by rfl)
